import Mathlib

/-!
Verification development for the portfolio generation core
(src/backend/services/lovable_style_generator.py).

The Python source is embedded shallowly: dictionaries become association
lists in insertion order, the json library becomes an executable parser
over the fragment the program exchanges (null, booleans, integers,
strings with the standard escapes, arrays, objects; floats and the
non-BMP escape forms are outside the modelled fragment), regular
expressions become specialised executable matchers for the two constant
patterns appearing in the source, and the model client becomes an
explicit function from the call index to either an exception message or
a raw response string.

Important fidelity note: the source file writes doubled backslashes in
its regex patterns and split delimiters (it is the only file of the
repository doing so).  Concretely the fence pattern matches the literal
two-character sequence backslash-n, not a newline, the import pattern
requires a literal backslash between the word from and the quote, and
line counting splits on the literal two-character sequence backslash-n.
The embedding reproduces these byte-level facts exactly.
-/

namespace PortGen

/-- JSON values as handled by the Python json library, restricted to the
fragment exchanged by the program: integers stand in for numbers (the
program never produces floats on the paths under verification). -/
inductive Json where
  | null : Json
  | bool (b : Bool) : Json
  | num (n : Int) : Json
  | str (s : String) : Json
  | arr (elems : List Json) : Json
  | obj (members : List (String × Json)) : Json
deriving Inhabited

/-- Single-quote character, kept out of string literals. -/
def sq : Char := Char.ofNat 39

/-- Opening curly brace character. -/
def obrace : Char := Char.ofNat 123

/-- Closing curly brace character. -/
def cbrace : Char := Char.ofNat 125

/-- Whitespace accepted between JSON tokens by the Python json parser:
space, horizontal tab, line feed, carriage return. -/
def isJsonWs (c : Char) : Bool :=
  c.toNat = 32 || c.toNat = 9 || c.toNat = 10 || c.toNat = 13

/-- Drop leading JSON whitespace. -/
def skipWs : List Char → List Char
  | c :: cs => if isJsonWs c then skipWs cs else c :: cs
  | [] => []

/-- Decimal digit test. -/
def isDigitC (c : Char) : Bool := '0' ≤ c && c ≤ '9'

/-- Value of a hexadecimal digit, written over the code point: digits map
down by 48, lowercase letters by 87, uppercase letters by 55. -/
def hexVal (c : Char) : Option Nat :=
  let v := c.toNat
  if 48 ≤ v && v ≤ 57 then some (v - 48)
  else if 97 ≤ v && v ≤ 102 then some (v - 87)
  else if 65 ≤ v && v ≤ 70 then some (v - 55)
  else none

/-- Split off a maximal run of decimal digits. -/
def takeDigits : List Char → List Char × List Char
  | c :: cs =>
    if isDigitC c then
      let p := takeDigits cs
      (c :: p.1, p.2)
    else ([], c :: cs)
  | [] => ([], [])

/-- Numeric value of a digit run. -/
def digitsToNat (ds : List Char) : Nat :=
  ds.foldl (fun acc c => acc * 10 + (c.toNat - '0'.toNat)) 0

/-- Python dict insertion: replace the value at an existing key in place,
otherwise append; this is how json.loads builds objects with duplicate
keys (last value wins, first position kept). -/
def objInsert : List (String × Json) → String → Json → List (String × Json)
  | [], k, v => [(k, v)]
  | (k0, v0) :: ms, k, v =>
    if k0 = k then (k0, v) :: ms else (k0, v0) :: objInsert ms k v

/-- String body parser, called after the opening double quote; handles the
standard JSON escapes.  The four-hex-digit escape is mapped through
Char.ofNat (surrogate pairing is outside the modelled fragment). -/
def parseStrAux (acc : List Char) : List Char → Option (String × List Char)
  | [] => none
  | c :: r =>
    if c = '"' then some (String.mk acc.reverse, r)
    else if c = '\\' then
      match r with
      | [] => none
      | e :: r1 =>
        if e = '"' then parseStrAux ('"' :: acc) r1
        else if e = '\\' then parseStrAux ('\\' :: acc) r1
        else if e = '/' then parseStrAux ('/' :: acc) r1
        else if e = 'b' then parseStrAux (Char.ofNat 8 :: acc) r1
        else if e = 'f' then parseStrAux (Char.ofNat 12 :: acc) r1
        else if e = 'n' then parseStrAux ('\n' :: acc) r1
        else if e = 'r' then parseStrAux (Char.ofNat 13 :: acc) r1
        else if e = 't' then parseStrAux ('\t' :: acc) r1
        else if e = 'u' then
          match r1 with
          | h1 :: h2 :: h3 :: h4 :: r2 =>
            match hexVal h1, hexVal h2, hexVal h3, hexVal h4 with
            | some a, some b, some c3, some d =>
              parseStrAux (Char.ofNat (((a * 16 + b) * 16 + c3) * 16 + d) :: acc) r2
            | _, _, _, _ => none
          | _ => none
        else none
    else if c.toNat < 32 then none
    else parseStrAux (c :: acc) r

/-- Integer literal parser; a following dot or exponent marks a float,
which is outside the modelled fragment. -/
def parsePosNum (cs : List Char) : Option (Nat × List Char) :=
  let p := takeDigits cs
  if p.1 = [] then none
  else if 1 < p.1.length && p.1.headD '0' = '0' then none
  else
    match p.2 with
    | c :: _ => if c = '.' || c = 'e' || c = 'E' then none else some (digitsToNat p.1, p.2)
    | [] => some (digitsToNat p.1, p.2)

mutual

/-- Recursive-descent JSON value parser with a fuel bound; one unit of
fuel is spent per opened composite or member, and each spend follows at
least one consumed character, so fuel equal to the input length suffices. -/
def parseVal : Nat → List Char → Option (Json × List Char)
  | 0, _ => none
  | Nat.succ f, cs0 =>
    match skipWs cs0 with
    | [] => none
    | c :: rest =>
      if c = obrace then
        match skipWs rest with
        | c2 :: r2 =>
          if c2 = cbrace then some (Json.obj [], r2)
          else
            match parseMembers f (c2 :: r2) [] with
            | some p => some (Json.obj p.1, p.2)
            | none => none
        | [] => none
      else if c = '[' then
        match skipWs rest with
        | c2 :: r2 =>
          if c2 = ']' then some (Json.arr [], r2)
          else
            match parseElems f (c2 :: r2) [] with
            | some p => some (Json.arr p.1, p.2)
            | none => none
        | [] => none
      else if c = '"' then
        match parseStrAux [] rest with
        | some p => some (Json.str p.1, p.2)
        | none => none
      else if c = 't' then
        match rest with
        | 'r' :: 'u' :: 'e' :: r => some (Json.bool true, r)
        | _ => none
      else if c = 'f' then
        match rest with
        | 'a' :: 'l' :: 's' :: 'e' :: r => some (Json.bool false, r)
        | _ => none
      else if c = 'n' then
        match rest with
        | 'u' :: 'l' :: 'l' :: r => some (Json.null, r)
        | _ => none
      else if c = '-' then
        match parsePosNum rest with
        | some p => some (Json.num (-(p.1 : Int)), p.2)
        | none => none
      else if isDigitC c then
        match parsePosNum (c :: rest) with
        | some p => some (Json.num (p.1 : Int), p.2)
        | none => none
      else none

/-- Object member list parser, called after the opening brace with at
least one member ahead. -/
def parseMembers : Nat → List Char → List (String × Json) →
    Option (List (String × Json) × List Char)
  | 0, _, _ => none
  | Nat.succ f, cs, acc =>
    match skipWs cs with
    | c :: rest =>
      if c = '"' then
        match parseStrAux [] rest with
        | some (k, r1) =>
          match skipWs r1 with
          | ':' :: r2 =>
            match parseVal f r2 with
            | some (v, r3) =>
              let acc2 := objInsert acc k v
              match skipWs r3 with
              | c4 :: r4 =>
                if c4 = ',' then parseMembers f r4 acc2
                else if c4 = cbrace then some (acc2, r4)
                else none
              | [] => none
            | none => none
          | _ => none
        | none => none
      else none
    | [] => none

/-- Array element list parser, called after the opening bracket with at
least one element ahead. -/
def parseElems : Nat → List Char → List Json → Option (List Json × List Char)
  | 0, _, _ => none
  | Nat.succ f, cs, acc =>
    match parseVal f cs with
    | some (v, r) =>
      match skipWs r with
      | ',' :: r2 => parseElems f r2 (acc ++ [v])
      | ']' :: r2 => some (acc ++ [v], r2)
      | _ => none
    | none => none

end

/-- Model of json.loads: parse one value and require only whitespace to
remain, as the Python library does. -/
def jsonParse (s : String) : Option Json :=
  match parseVal (s.data.length + 1) s.data with
  | some (j, rest) => if skipWs rest = [] then some j else none
  | none => none

/-- Backtick character. -/
def btick : Char := Char.ofNat 96

/-- Characters of the literal separator demanded by the fence pattern
after the captured group: backslash, n, and three backticks.  The source
pattern is written with doubled backslashes inside a raw string, so the
regex requires these literal characters rather than a newline. -/
def fenceTailSep : List Char := ['\\', 'n', btick, btick, btick]

/-- Split a character list at the first occurrence of a separator,
returning the part before it and the part after it. -/
def breakOnSub (sep : List Char) : List Char → Option (List Char × List Char)
  | [] => if sep.isEmpty then some ([], []) else none
  | c :: cs =>
    if sep.isPrefixOf (c :: cs) then some ([], (c :: cs).drop sep.length)
    else
      match breakOnSub sep cs with
      | some (p, r) => some (c :: p, r)
      | none => none

/-- Drop a maximal run of the letter s (the s-star part of the patterns;
the following required character is never s, so maximal munch agrees
with regex backtracking). -/
def dropRunS (cs : List Char) : List Char :=
  cs.dropWhile (· == 's')

/-- Tail of the fence pattern after the backticks and the optional json
tag: a literal backslash, a run of s, the literal characters backslash
and n, then the lazily captured group up to the literal separator. -/
def matchFenceTail (cs : List Char) : Option String :=
  match cs with
  | c :: r1 =>
    if c = '\\' then
      match dropRunS r1 with
      | c2 :: c3 :: r2 =>
        if c2 = '\\' && c3 = 'n' then
          match breakOnSub fenceTailSep r2 with
          | some (captured, _) => some (String.mk captured)
          | none => none
        else none
      | _ => none
    else none
  | [] => none

/-- Attempt the fence pattern at the current position: three backticks,
an optional json tag (tried greedily first, as the regex engine does),
then the tail. -/
def matchFenceAt (cs : List Char) : Option String :=
  match cs with
  | c1 :: c2 :: c3 :: rest =>
    if c1 = btick && c2 = btick && c3 = btick then
      match rest with
      | 'j' :: 's' :: 'o' :: 'n' :: r =>
        match matchFenceTail r with
        | some s => some s
        | none => matchFenceTail rest
      | _ => matchFenceTail rest
    else none
  | _ => none

/-- Leftmost search for the fence pattern, as re.search does. -/
def searchFence : List Char → Option String
  | [] => none
  | c :: cs =>
    match matchFenceAt (c :: cs) with
    | some s => some s
    | none => searchFence cs

/-- Model of the private extraction helper: try a direct json.loads, then
search for the (literal-backslash) fence pattern and parse its stripped
interior; the None result stands for the ValueError the source raises. -/
def extract_json (text : String) : Option Json :=
  match jsonParse text with
  | some j => some j
  | none =>
    match searchFence text.data with
    | some candidate =>
      match jsonParse candidate.trim with
      | some j => some j
      | none => none
    | none => none

/-- Quote class of the import pattern: single or double quote. -/
def isQuoteC (c : Char) : Bool := c == sq || c == '"'

/-- Character class of the captured component name in the import pattern.
The source writes the class with a doubled backslash inside a raw
string, so it contains exactly the backslash, the letter w, and the
slash. -/
def isCompNameChar (c : Char) : Bool := c == '\\' || c == 'w' || c == '/'

/-- Drop an expected literal character prefix. -/
def dropLit : List Char → List Char → Option (List Char)
  | [], cs => some cs
  | p :: ps, c :: cs => if c = p then dropLit ps cs else none
  | _ :: _, [] => none

/-- Characters of the literal component path segment of the import
pattern. -/
def compSegment : List Char := String.data "@/components/"

/-- Attempt the import pattern at the current position: the word from, a
literal backslash, one or more s, a quote, the component path segment, a
nonempty captured run of name-class characters, and a closing quote.
Returns the captured name and the remainder after the match. -/
def matchImportAt (cs : List Char) : Option (String × List Char) :=
  match cs with
  | 'f' :: 'r' :: 'o' :: 'm' :: c :: r1 =>
    if c = '\\' then
      match r1 with
      | c2 :: r2 =>
        if c2 = 's' then
          match dropRunS (c2 :: r2) with
          | q1 :: r3 =>
            if isQuoteC q1 then
              match dropLit compSegment r3 with
              | some r4 =>
                let name := r4.takeWhile isCompNameChar
                let r5 := r4.dropWhile isCompNameChar
                if name.isEmpty then none
                else
                  match r5 with
                  | q2 :: r6 => if isQuoteC q2 then some (String.mk name, r6) else none
                  | [] => none
              | none => none
            else none
          | [] => none
        else none
      | [] => none
    else none
  | _ => none

/-- Scan for non-overlapping matches of the import pattern left to right,
as re.findall does; every successful match consumes at least one
character, so fuel equal to the input length suffices. -/
def findallAux : Nat → List Char → List String
  | 0, _ => []
  | Nat.succ f, cs =>
    match cs with
    | [] => []
    | c :: rest =>
      match matchImportAt (c :: rest) with
      | some (name, r) => name :: findallAux f r
      | none => findallAux f rest

/-- All captured component names of the import pattern in a page text. -/
def findallImports (cs : List Char) : List String :=
  findallAux cs.length cs

/-- File sets: Python string-to-string dictionaries in insertion order. -/
abbrev FileSet := List (String × String)

/-- Python key membership test on a dictionary. -/
def fsContains : FileSet → String → Bool
  | [], _ => false
  | kv :: t, k => kv.1 == k || fsContains t k

/-- Python dictionary lookup (first entry of the key). -/
def fsGet : FileSet → String → Option String
  | [], _ => none
  | kv :: t, k => if kv.1 == k then some kv.2 else fsGet t k

/-- Python dict.get with a default. -/
def fsGetD (fs : FileSet) (k : String) (d : String) : String :=
  (fsGet fs k).getD d

/-- Python copy-then-update merge: existing keys keep their position and
take the updating value, new keys are appended in order. -/
def pyUpdate (a b : FileSet) : FileSet :=
  a.map (fun kv => (kv.1, fsGetD b kv.1 kv.2)) ++
    b.filter (fun kv => !fsContains a kv.1)

/-- Required core files constant of the source. -/
def REQUIRED_CORE_FILES : List String :=
  ["package.json", "app/layout.tsx", "app/page.tsx", "tsconfig.json", "tailwind.config.ts"]

/-- File count ceiling constant of the source. -/
def MAX_FILES : Nat := 60

/-- Message appended for a missing required file. -/
def missingMsg (f : String) : String :=
  "Missing required file: " ++ f

/-- Message appended when the file count ceiling is exceeded. -/
def tooManyMsg (n : Nat) : String :=
  "Too many files generated (" ++ toString n ++ " > " ++ toString MAX_FILES ++ ")"

/-- Message appended for an imported component without a file. -/
def componentMsg (name : String) : String :=
  "Component " ++ String.singleton sq ++ name ++ String.singleton sq ++
    " imported in app/page.tsx but components/" ++ name ++ ".tsx not created"

/-- Model of the private validator: required files, file count ceiling,
then the import check on the entry page when its content is nonempty;
the flag is true exactly when the problem list is empty. -/
def validate_generated_files (files : FileSet) : Bool × List String :=
  let problems1 := (REQUIRED_CORE_FILES.filter (fun f => !fsContains files f)).map missingMsg
  let problems2 := if files.length > MAX_FILES then [tooManyMsg files.length] else []
  let page := fsGetD files "app/page.tsx" ""
  let problems3 :=
    if page = "" then []
    else
      (findallImports page.data).filterMap (fun name =>
        if fsContains files ("components/" ++ name ++ ".tsx") then none
        else some (componentMsg name))
  let problems := problems1 ++ problems2 ++ problems3
  (problems.isEmpty, problems)

/-- Model of the initial-generation detector: the flag is set when the
current file set is empty or any required core file is absent, and the
missing required files are returned alongside. -/
def detect_initial_generation (current : FileSet) : Bool × List String :=
  let missing := REQUIRED_CORE_FILES.filter (fun f => !fsContains current f)
  (current.isEmpty || !missing.isEmpty, missing)

/-- Lookup of a member of a parsed reply object by key. -/
def jMember (j : Json) (k : String) : Option Json :=
  match j with
  | Json.obj ms => (ms.find? (fun kv => kv.1 == k)).map (fun kv => kv.2)
  | _ => none

/-- The get-with-empty-default read of a text member of the reply, as the
source does for the thought and summary keys; a present non-string value
would flow through the Python source unchanged, never reaching any
inspected failure field, and is modelled as the empty string. -/
def strFieldD (j : Json) (k : String) : String :=
  match jMember j k with
  | some (Json.str s) => s
  | _ => ""

/-- Read of the files member of the reply, with the empty object as the
default: a reply that is not an object would raise in the source at the
get call, and a files value that is not a string-valued object would
raise at the later items or split calls inside the same try block; both
dynamic failures are modelled as an exception message here, since every
such path ends in the same generic exception handler of the source. -/
def filesOfReply (j : Json) : Except String FileSet :=
  match j with
  | Json.obj ms =>
    match ((ms.find? (fun kv => kv.1 == "files")).map (fun kv => kv.2)).getD (Json.obj []) with
    | Json.obj fs =>
      fs.foldr
        (fun kv acc =>
          match kv.2, acc with
          | Json.str s, Except.ok rest => Except.ok ((kv.1, s) :: rest)
          | _, Except.ok _ => Except.error "TypeError: file content is not a string"
          | _, Except.error e => Except.error e)
        (Except.ok [])
    | _ => Except.error "AttributeError: files value has no items"
  | _ => Except.error "AttributeError: reply has no get"

/-- Literal two-character delimiter used by the source when counting
lines: the split delimiter is written with a doubled backslash, so the
source splits on the characters backslash and n, not on newlines. -/
def lineSplitDelim : String := "\\n"

/-- Line count the source assigns to fresh content. -/
def newLineCount (s : String) : Nat :=
  (s.splitOn lineSplitDelim).length

/-- Line count the source assigns to previous content, where the empty
string (also the default for an absent path) counts as zero lines. -/
def oldLineCount (s : String) : Nat :=
  if s = "" then 0 else (s.splitOn lineSplitDelim).length

/-- Edit record computed per generated file. -/
structure Edit where
  file : String
  lines_added : Int
  lines_removed : Int
  total_lines : Nat
  old_content : String
  new_content : String
deriving Repr, DecidableEq

/-- One edit record, from the previous content found in the current files
(defaulting to empty for an absent path) and the fresh content. -/
def mkEdit (current : FileSet) (fn newContent : String) : Edit :=
  let oldContent := fsGetD current fn ""
  { file := fn
    lines_added := max 0 ((newLineCount newContent : Int) - (oldLineCount oldContent : Int))
    lines_removed := max 0 ((oldLineCount oldContent : Int) - (newLineCount newContent : Int))
    total_lines := newLineCount newContent
    old_content := oldContent
    new_content := newContent }

/-- Edit records for every generated file, in order. -/
def computeEdits (current refined : FileSet) : List Edit :=
  refined.map (fun kv => mkEdit current kv.1 kv.2)

/-- Result dictionary returned by the refinement call.  Wall-clock fields
of the source (thought_time, per-tool durations) are outside the model;
tools_used keeps only the tool names. -/
structure Result where
  success : Bool
  files : FileSet
  refined_files : FileSet
  thought : String
  tools_used : List String
  edits_made : List Edit
  summary : String
  error : Option String
  validation_problems : Option (List String)

/-- Instrumentation of a refinement run: how many model calls were made,
which merged file sets were passed to the validator, and the files
extracted from each successfully parsed reply. -/
structure Trace where
  calls : Nat
  validateInputs : List FileSet
  attemptFiles : List FileSet

/-- Mutable state of the attempt loop of the source. -/
structure LoopState where
  validation_passed : Bool
  refined : FileSet
  thought : String
  summary : String
  problems : List String
  tools : List String
  calls : Nat
  validateInputs : List FileSet
  attemptFiles : List FileSet
  exc : Option String

/-- Loop state on entry of the attempt loop. -/
def initLoopState : LoopState :=
  { validation_passed := false, refined := [], thought := "", summary := ""
    problems := [], tools := ["analyze_request"], calls := 0
    validateInputs := [], attemptFiles := [], exc := none }

/-- One iteration of the attempt loop: call the model client (indexed by
the number of calls made so far), extract the reply, read its files, and
validate the merge with the current files when the run is an initial
generation; any raised exception is recorded and ends the loop. -/
def attemptStep (respond : Nat → Except String String) (current : FileSet)
    (isInit : Bool) (st : LoopState) : LoopState :=
  match respond st.calls with
  | Except.error e => { st with exc := some e, calls := st.calls + 1 }
  | Except.ok content =>
    let st1 := { st with
      calls := st.calls + 1
      tools := st.tools ++ ["generate_code_attempt_" ++ toString (st.calls + 1)] }
    match extract_json content with
    | none => { st1 with exc := some "No valid JSON found in LLM response" }
    | some r =>
      match filesOfReply r with
      | Except.error e => { st1 with exc := some e }
      | Except.ok fsR =>
        let st2 := { st1 with
          refined := fsR
          thought := strFieldD r "thought"
          summary := strFieldD r "summary"
          attemptFiles := st1.attemptFiles ++ [fsR] }
        if isInit then
          let merged := pyUpdate current fsR
          let vr := validate_generated_files merged
          { st2 with
            validation_passed := vr.1
            problems := vr.2
            validateInputs := st2.validateInputs ++ [merged] }
        else { st2 with validation_passed := true }

/-- The attempt loop: run while attempts remain and validation has not
passed, stopping when an exception escapes an iteration. -/
def loopA (respond : Nat → Except String String) (current : FileSet)
    (isInit : Bool) : Nat → LoopState → LoopState
  | 0, st => st
  | Nat.succ fuel, st =>
    if st.validation_passed then st
    else
      let st1 := attemptStep respond current isInit st
      match st1.exc with
      | some _ => st1
      | none => loopA respond current isInit fuel st1

/-- Result of the unconfigured-client early return of the source. -/
def noClientResult (current : FileSet) : Result :=
  { success := false, files := current, refined_files := [], thought := ""
    tools_used := [], edits_made := []
    summary := "Groq client not configured (GROQ_API_KEY missing)"
    error := some "missing_groq_key", validation_problems := none }

/-- Instrumentation read off a final loop state. -/
def traceOf (st : LoopState) : Trace :=
  { calls := st.calls, validateInputs := st.validateInputs, attemptFiles := st.attemptFiles }

/-- Result the source returns after a run whose loop ended in the state
given: the generic exception handler, the validation-failed return, or
the successful merge, in that order. -/
def finishRun (current_files : FileSet) (isInit : Bool) (st : LoopState) : Result :=
  match st.exc with
  | some e =>
    { success := false, files := current_files, refined_files := []
      thought := "Error: " ++ e, tools_used := st.tools, edits_made := []
      summary := "", error := some e, validation_problems := none }
  | none =>
    if !st.validation_passed && isInit then
      { success := false, files := current_files, refined_files := st.refined
        thought := "Validation failed: " ++ String.intercalate "; " st.problems
        tools_used := st.tools, edits_made := []
        summary := "Portfolio generation failed validation checks"
        error := some "validation_failed"
        validation_problems := some st.problems }
    else
      { success := true, files := pyUpdate current_files st.refined
        refined_files := st.refined, thought := st.thought
        tools_used := st.tools
        edits_made := computeEdits current_files st.refined
        summary := st.summary, error := none, validation_problems := none }

/-- Model of the refinement entry point.  The prompt and user-message
construction of the source only shapes the text sent to the model
client, which is abstracted by the respond function, so it does not
appear; auto retry selects the attempt budget.  The instrumentation
trace is returned alongside the result dictionary. -/
def refine_portfolio (clientConfigured : Bool)
    (respond : Nat → Except String String) (current_files : FileSet)
    (auto_retry : Bool) : Result × Trace :=
  if clientConfigured = false then
    (noClientResult current_files, { calls := 0, validateInputs := [], attemptFiles := [] })
  else
    let isInit := (detect_initial_generation current_files).1
    let maxAttempts := if auto_retry then 2 else 1
    let st := loopA respond current_files isInit maxAttempts initLoopState
    (finishRun current_files isInit st, traceOf st)

/-- Data of a result event of the streaming path.  The two keys that are
present only on some source paths (edits_made and summary) are optional
here, mirroring the exact dictionaries the source yields. -/
structure SData where
  success : Bool
  files : FileSet
  refined_files : FileSet
  thought : String
  edits_made : Option (List Edit)
  summary : Option String
  error : Option String

/-- A streamed event: a tool progress event or the terminal result. -/
inductive Event where
  | tool (name status : String) : Event
  | result (d : SData) : Event

/-- Recognizer for result events. -/
def isResultEvent : Event → Bool
  | Event.result _ => true
  | Event.tool _ _ => false

/-- Result data yielded by the generic exception handler of the
streaming path. -/
def streamFailData (current : FileSet) (e : String) : SData :=
  { success := false, files := current, refined_files := []
    thought := "Error: " ++ e, edits_made := some [], summary := some ""
    error := some e }

/-- Model of the streaming refinement: the source makes a single model
call with no validation and no retry, yields tool progress events as it
goes, and converts every internal failure into one terminal result
event. -/
def stream_refine_portfolio (clientConfigured : Bool)
    (respond : Except String String) (current_files : FileSet) : List Event :=
  [Event.tool "analyze_request" "running", Event.tool "analyze_request" "success"] ++
    (if clientConfigured = false then
      [Event.result
        { success := false, files := current_files, refined_files := []
          thought := "Groq client not configured", edits_made := none
          summary := none, error := some "missing_groq_key" }]
    else
      [Event.tool "generate_code" "running"] ++
        match respond with
        | Except.error e => [Event.result (streamFailData current_files e)]
        | Except.ok content =>
          [Event.tool "generate_code" "success"] ++
            match extract_json content with
            | none =>
              [Event.result (streamFailData current_files "No valid JSON found in LLM response")]
            | some r =>
              match filesOfReply r with
              | Except.error e => [Event.result (streamFailData current_files e)]
              | Except.ok fsR =>
                [Event.result
                  { success := true, files := pyUpdate current_files fsR
                    refined_files := fsR, thought := strFieldD r "thought"
                    edits_made := some (computeEdits current_files fsR)
                    summary := some (strFieldD r "summary"), error := none }])

/-- Internal-error condition of one streaming run: the client is not
configured, the model call raises, extraction fails, or the reply files
cannot be read. -/
def streamInternalError (clientConfigured : Bool)
    (respond : Except String String) : Bool :=
  !clientConfigured ||
    match respond with
    | Except.error _ => true
    | Except.ok content =>
      match extract_json content with
      | none => true
      | some r =>
        match filesOfReply r with
        | Except.error _ => true
        | Except.ok _ => false

/-! ### Helper lemmas -/

theorem string_eq_of_data {a b : String} (h : a.data = b.data) : a = b := by
  cases a; cases b; exact congrArg String.mk h

theorem missingMsg_inj {p q : String} (h : missingMsg p = missingMsg q) : p = q := by
  have h2 := congrArg String.data h
  rw [missingMsg, missingMsg, String.data_append, String.data_append] at h2
  exact string_eq_of_data (List.append_cancel_left h2)

theorem missingMsg_head (p : String) : (missingMsg p).data.head? = some 'M' := by
  rw [missingMsg, String.data_append]; rfl

theorem tooManyMsg_head (n : Nat) : (tooManyMsg n).data.head? = some 'T' := by
  rw [tooManyMsg, String.data_append, String.data_append, String.data_append]; rfl

theorem componentMsg_head (m : String) : (componentMsg m).data.head? = some 'C' := by
  rw [componentMsg, String.data_append, String.data_append, String.data_append,
    String.data_append, String.data_append]; rfl

theorem missingMsg_ne_tooMany (p : String) (n : Nat) : missingMsg p ≠ tooManyMsg n := by
  intro h
  have h2 := congrArg (fun s => s.data.head?) h
  simp only [missingMsg_head, tooManyMsg_head] at h2
  exact absurd (Option.some.inj h2) (by decide)

theorem missingMsg_ne_component (p m : String) : missingMsg p ≠ componentMsg m := by
  intro h
  have h2 := congrArg (fun s => s.data.head?) h
  simp only [missingMsg_head, componentMsg_head] at h2
  exact absurd (Option.some.inj h2) (by decide)

theorem count_missing_filter (l : List String) (q : String → Bool) (p : String)
    (hnd : l.Nodup) (hp : p ∈ l) :
    ((l.filter q).map missingMsg).count (missingMsg p) = if q p then 1 else 0 := by
  induction l with
  | nil => cases hp
  | cons a t ih =>
    rw [List.nodup_cons] at hnd
    rcases List.mem_cons.mp hp with rfl | hpt
    · have hnot : (missingMsg p) ∉ (t.filter q).map missingMsg := by
        intro hmem
        rcases List.mem_map.mp hmem with ⟨b, hb, hbe⟩
        exact hnd.1 (missingMsg_inj hbe ▸ List.mem_of_mem_filter hb)
      rw [List.filter_cons]
      by_cases hq : q p
      · simp [hq, List.count_cons, List.count_eq_zero.mpr hnot]
      · simp [hq, List.count_eq_zero.mpr hnot]
    · have hap : a ≠ p := fun he => hnd.1 (he ▸ hpt)
      have hne : ¬ (missingMsg a = missingMsg p) := fun he => hap (missingMsg_inj he)
      rw [List.filter_cons]
      by_cases hq : q a
      · simp only [hq, if_true, List.map_cons, List.count_cons]
        rw [ih hnd.2 hpt]
        simp [hne]
      · simp only [hq, if_false]
        exact ih hnd.2 hpt

theorem fsGet_append (a b : FileSet) (k : String) :
    fsGet (a ++ b) k = (fsGet a k).orElse (fun _ => fsGet b k) := by
  induction a with
  | nil => cases h : fsGet b k <;> simp [fsGet, Option.orElse, h]
  | cons kv t ih =>
    by_cases h : (kv.1 == k) = true
    · simp [fsGet, h, Option.orElse]
    · simp [fsGet, h, ih]

theorem fsGet_map_update (a b : FileSet) (k : String) :
    fsGet (a.map (fun kv => (kv.1, fsGetD b kv.1 kv.2))) k =
      (fsGet a k).map (fun v => fsGetD b k v) := by
  induction a with
  | nil => rfl
  | cons kv t ih =>
    by_cases h : (kv.1 == k) = true
    · have he : kv.1 = k := by simpa using h
      simp [fsGet, h, he]
    · simp [fsGet, h, ih]

theorem fsContains_eq_isSome (a : FileSet) (k : String) :
    fsContains a k = (fsGet a k).isSome := by
  induction a with
  | nil => rfl
  | cons kv t ih =>
    by_cases h : (kv.1 == k) = true
    · simp [fsContains, fsGet, h]
    · simp [fsContains, fsGet, h, ih]

theorem fsGet_filter_not_contains (a b : FileSet) (k : String) :
    fsGet (b.filter (fun kv => !fsContains a kv.1)) k =
      if fsContains a k then none else fsGet b k := by
  induction b with
  | nil => cases h : fsContains a k <;> simp [fsGet, h]
  | cons kv t ih =>
    rw [List.filter_cons]
    by_cases hk : (kv.1 == k) = true
    · have he : kv.1 = k := by simpa using hk
      by_cases hc : fsContains a kv.1 = true
      · have hck : fsContains a k = true := he ▸ hc
        simp only [hc, Bool.not_true, Bool.false_eq_true, if_false]
        rw [ih, hck]
        simp
      · have hcf : fsContains a kv.1 = false := by simpa using hc
        have hckf : fsContains a k = false := he ▸ hcf
        simp [hcf, fsGet, hk, hckf]
    · by_cases hc : fsContains a kv.1 = true
      · simp only [hc, Bool.not_true, Bool.false_eq_true, if_false]
        rw [ih]
        cases h2 : fsContains a k <;> simp [fsGet, hk]
      · have hcf : fsContains a kv.1 = false := by simpa using hc
        simp only [hcf, Bool.not_false, if_true]
        rw [fsGet, if_neg (by simpa using hk), ih]
        cases h2 : fsContains a k <;> simp [fsGet, hk]

theorem pyUpdate_lookup (a b : FileSet) (k : String) :
    fsGet (pyUpdate a b) k = (fsGet b k).orElse (fun _ => fsGet a k) := by
  rw [pyUpdate, fsGet_append, fsGet_map_update, fsGet_filter_not_contains]
  by_cases h : fsContains a k = true
  · have hs : (fsGet a k).isSome := by rw [← fsContains_eq_isSome]; exact h
    rcases Option.isSome_iff_exists.mp hs with ⟨v, hv⟩
    rw [hv]
    simp only [h, if_true, Option.map_some']
    cases hb : fsGet b k <;> simp [fsGetD, hb, Option.orElse]
  · have hs : fsGet a k = none := by
      cases hg : fsGet a k with
      | none => rfl
      | some v =>
        exact absurd (by rw [fsContains_eq_isSome, hg]; rfl) h
    rw [hs]
    have hf : fsContains a k = false := by simpa using h
    simp only [hf, Bool.false_eq_true, if_false, Option.map_none']
    cases hb : fsGet b k <;> simp [Option.orElse]

theorem pyUpdate_nil (a : FileSet) : pyUpdate a [] = a := by
  simp [pyUpdate, fsGetD, fsGet]

/-! ### Claim C1: validator completeness on required files -/

/-- C1: for every candidate file set, the problem list of the validator
holds exactly one missing-required-file message for each required core
file absent from the set (and none for a present one, with no early
exit), and the validity flag is true exactly when the problem list is
empty. -/
theorem validator_missing_required_complete (files : FileSet) (p : String)
    (hp : p ∈ REQUIRED_CORE_FILES) :
    ((validate_generated_files files).2.count (missingMsg p)
        = if fsContains files p then 0 else 1)
    ∧ ((validate_generated_files files).1 = true ↔ (validate_generated_files files).2 = []) := by
  have hnd : REQUIRED_CORE_FILES.Nodup := by decide
  constructor
  · simp only [validate_generated_files]
    rw [List.count_append, List.count_append]
    rw [count_missing_filter REQUIRED_CORE_FILES _ p hnd hp]
    have h2 : List.count (missingMsg p)
        (if files.length > MAX_FILES then [tooManyMsg files.length] else []) = 0 := by
      rw [List.count_eq_zero]
      intro hm
      split at hm
      · exact missingMsg_ne_tooMany p files.length (List.mem_singleton.mp hm)
      · cases hm
    have h3 : List.count (missingMsg p)
        (if fsGetD files "app/page.tsx" "" = "" then []
         else (findallImports (fsGetD files "app/page.tsx" "").data).filterMap
           (fun name =>
             if fsContains files ("components/" ++ name ++ ".tsx") then none
             else some (componentMsg name))) = 0 := by
      rw [List.count_eq_zero]
      intro hm
      split at hm
      · cases hm
      · rcases List.mem_filterMap.mp hm with ⟨name, _, hsome⟩
        split at hsome
        · cases hsome
        · exact missingMsg_ne_component p name (Option.some.inj hsome).symm
    rw [h2, h3]
    cases hcont : fsContains files p <;> simp [hcont]
  · simp only [validate_generated_files]
    exact List.isEmpty_iff

/-- Witness for C1 at a concrete file set missing a required file. -/
theorem validator_missing_required_complete_witness :
    ((validate_generated_files [("package.json", "x")]).2.count (missingMsg "tsconfig.json")
        = if fsContains [("package.json", "x")] "tsconfig.json" then 0 else 1)
    ∧ ((validate_generated_files [("package.json", "x")]).1 = true
        ↔ (validate_generated_files [("package.json", "x")]).2 = []) :=
  validator_missing_required_complete [("package.json", "x")] "tsconfig.json" (by decide)

/-! ### Claim C2: the import check of the validator never fires on the
documented import syntax, because the pattern in the source demands a
literal backslash between the word from and the quote -/

/-- Entry page content using exactly the import syntax named by the claim
and by the comment in the source. -/
def c2PageContent : String :=
  "import Foo from " ++ String.singleton sq ++ "@/components/Foo" ++ String.singleton sq

/-- Candidate file set with all required core files, an entry page
that imports the component Foo, and no components/Foo.tsx. -/
def c2Files : FileSet :=
  [("package.json", "\x7b\x7d"),
   ("app/layout.tsx", "export default function Layout() \x7b\x7d"),
   ("app/page.tsx", c2PageContent),
   ("tsconfig.json", "\x7b\x7d"),
   ("tailwind.config.ts", "export default \x7b\x7d")]

/-- C2 evaluation at the failing input: the validator finds no import at
all in the page (the pattern requires a literal backslash-s sequence),
reports zero problems and passes, where the claim requires exactly one
problem naming Foo. -/
theorem validator_import_check_bug :
    validate_generated_files c2Files = (true, [])
    ∧ findallImports c2PageContent.data = []
    ∧ fsContains c2Files "components/Foo.tsx" = false := by
  refine ⟨?_, ?_, ?_⟩ <;> rfl

/-! ### Claim C3: extraction of a fenced JSON block fails, because the
fence pattern in the source demands literal backslash characters in
place of newlines -/

/-- C3 evaluation: a direct serialization round-trips, but the very same
serialization wrapped in a triple-backtick fence with the json tag and
real newlines is rejected (the None result models the raised
ValueError). -/
theorem extract_json_fence_bug :
    extract_json "\x7b\"a\": \"b\"\x7d" = some (Json.obj [("a", Json.str "b")])
    ∧ extract_json ("```json\n\x7b\"a\": \"b\"\x7d\n```") = none := by
  exact ⟨rfl, rfl⟩

/-! ### Lemmas on the end of a refinement run -/

theorem append_ne_empty_of_left_ne {a : String} (b : String) (h : a.length ≠ 0) :
    a ++ b ≠ "" := by
  intro hc
  have h2 := congrArg String.length hc
  rw [String.length_append] at h2
  have h3 : ("" : String).length = 0 := rfl
  omega

/-- A successful run result is exactly the merged-success record of the
final loop state. -/
theorem finishRun_success_eq (current : FileSet) (isInit : Bool) (st : LoopState)
    (h : (finishRun current isInit st).success = true) :
    finishRun current isInit st
      = { success := true, files := pyUpdate current st.refined
          refined_files := st.refined, thought := st.thought
          tools_used := st.tools, edits_made := computeEdits current st.refined
          summary := st.summary, error := none, validation_problems := none } := by
  obtain ⟨vp, rf, th, sm, pr, tl, ca, vi, af, exc⟩ := st
  cases exc with
  | some e => simp [finishRun] at h
  | none =>
    simp only [finishRun] at h ⊢
    by_cases hb : (!vp && isInit) = true
    · rw [if_pos hb] at h; simp at h
    · rw [if_neg hb]

/-- Every failing run result keeps the caller's files, carries an error
code, and has a nonempty thought. -/
theorem finishRun_failure (current : FileSet) (isInit : Bool) (st : LoopState)
    (h : (finishRun current isInit st).success = false) :
    (finishRun current isInit st).files = current
    ∧ ((finishRun current isInit st).error).isSome = true
    ∧ (finishRun current isInit st).thought ≠ "" := by
  obtain ⟨vp, rf, th, sm, pr, tl, ca, vi, af, exc⟩ := st
  cases exc with
  | some e =>
    exact ⟨rfl, rfl, append_ne_empty_of_left_ne _ (by decide)⟩
  | none =>
    simp only [finishRun] at h ⊢
    by_cases hb : (!vp && isInit) = true
    · rw [if_pos hb]
      exact ⟨rfl, rfl, append_ne_empty_of_left_ne _ (by decide)⟩
    · rw [if_neg hb] at h; simp at h

/-! ### Claim C5 (corrected): failure non-corruption -/

/-- Counterexample to C5 as stated: the unconfigured-client failure
outcome returns an empty thought, so not every failure outcome carries a
populated thought. -/
theorem refine_unconfigured_empty_thought :
    (refine_portfolio false (fun _ => Except.error "") [] true).1.success = false
    ∧ (refine_portfolio false (fun _ => Except.error "") [] true).1.error
        = some "missing_groq_key"
    ∧ (refine_portfolio false (fun _ => Except.error "") [] true).1.thought = "" :=
  ⟨rfl, rfl, rfl⟩

/-- C5 as amended: every failure outcome returns the caller's files
unchanged with success false and a populated error code, and its thought
is nonempty on every failure path except the unconfigured-client one,
where the thought is the empty string. -/
theorem refine_failure_non_corruption
    (cc : Bool) (respond : Nat → Except String String) (current : FileSet) (retry : Bool)
    (hfail : (refine_portfolio cc respond current retry).1.success = false) :
    (refine_portfolio cc respond current retry).1.files = current
    ∧ ((refine_portfolio cc respond current retry).1.error).isSome = true
    ∧ (cc = true → (refine_portfolio cc respond current retry).1.thought ≠ "") := by
  cases cc with
  | false => exact ⟨rfl, rfl, fun h => by cases h⟩
  | true =>
    simp only [refine_portfolio, Bool.true_eq_false, if_neg (by simp : ¬(True = False))] at hfail ⊢
    have h := finishRun_failure current _ _ hfail
    exact ⟨h.1, h.2.1, fun _ => h.2.2⟩

/-- Witness for the amended C5 at a run failing by extraction. -/
theorem refine_failure_non_corruption_witness :
    (refine_portfolio true (fun _ => Except.ok "nope") [("a", "b")] true).1.files = [("a", "b")]
    ∧ (((refine_portfolio true (fun _ => Except.ok "nope") [("a", "b")] true).1.error).isSome = true)
    ∧ (true = true →
        (refine_portfolio true (fun _ => Except.ok "nope") [("a", "b")] true).1.thought ≠ "") :=
  refine_failure_non_corruption true (fun _ => Except.ok "nope") [("a", "b")] true rfl

/-! ### Claim C6: merge is the right-biased union -/

/-- C6: on every successful run the merged files are the right-biased
union of the current files with the extracted files (every lookup
prefers the extracted entry), and an empty extracted set returns the
current files unchanged. -/
theorem merge_right_biased_union
    (cc : Bool) (respond : Nat → Except String String) (current : FileSet) (retry : Bool)
    (hs : (refine_portfolio cc respond current retry).1.success = true) :
    (∀ p, fsGet ((refine_portfolio cc respond current retry).1.files) p
        = ((fsGet ((refine_portfolio cc respond current retry).1.refined_files) p).orElse
            (fun _ => fsGet current p)))
    ∧ ((refine_portfolio cc respond current retry).1.refined_files = []
        → (refine_portfolio cc respond current retry).1.files = current) := by
  cases cc with
  | false => cases hs
  | true =>
    simp only [refine_portfolio, Bool.true_eq_false, if_neg (by simp : ¬(True = False))] at hs ⊢
    rw [finishRun_success_eq current _ _ hs]
    refine ⟨fun p => pyUpdate_lookup current _ p, fun hnil => ?_⟩
    have h2 := congrArg (fun l => pyUpdate current l) hnil
    exact h2.trans (pyUpdate_nil current)

/-- Complete current project used by refinement-path witnesses. -/
def completeProject : FileSet :=
  [("package.json", "p"), ("app/layout.tsx", "l"), ("app/page.tsx", "pg"),
   ("tsconfig.json", "t"), ("tailwind.config.ts", "tw")]

/-- Witness for C6 at a successful refinement run with an empty
extracted set. -/
theorem merge_right_biased_union_witness :
    fsGet ((refine_portfolio true (fun _ => Except.ok "\x7b\x7d") completeProject true).1.files)
        "package.json"
      = ((fsGet ((refine_portfolio true (fun _ => Except.ok "\x7b\x7d")
            completeProject true).1.refined_files) "package.json").orElse
          (fun _ => fsGet completeProject "package.json")) :=
  (merge_right_biased_union true (fun _ => Except.ok "\x7b\x7d") completeProject true rfl).1
    "package.json"

/-! ### Claim C4: retry bound under persistent validation failure -/

/-- C4: with auto retry enabled, on an initial build, when every reply
parses to a structured object whose merge with the current files fails
validation, exactly two model calls are made and the run fails with the
validation-failed error code carrying the problems of the last
attempt. -/
theorem refine_retry_bound
    (current : FileSet) (respond : Nat → Except String String)
    (c : Nat → String) (r : Nat → Json) (F : Nat → FileSet)
    (hinit : (detect_initial_generation current).1 = true)
    (h : ∀ i, i < 2 → respond i = Except.ok (c i)
        ∧ extract_json (c i) = some (r i)
        ∧ filesOfReply (r i) = Except.ok (F i)
        ∧ (validate_generated_files (pyUpdate current (F i))).1 = false) :
    (refine_portfolio true respond current true).2.calls = 2
    ∧ (refine_portfolio true respond current true).1.success = false
    ∧ (refine_portfolio true respond current true).1.error = some "validation_failed"
    ∧ (refine_portfolio true respond current true).1.validation_problems
        = some (validate_generated_files (pyUpdate current (F 1))).2
    ∧ (refine_portfolio true respond current true).1.files = current := by
  obtain ⟨hr0, he0, hf0, hv0⟩ := h 0 (by omega)
  obtain ⟨hr1, he1, hf1, hv1⟩ := h 1 (by omega)
  refine ⟨?_, ?_, ?_, ?_, ?_⟩ <;>
    simp [refine_portfolio, hinit, loopA, attemptStep, initLoopState, finishRun, traceOf,
      hr0, he0, hf0, hv0, hr1, he1, hf1, hv1]

/-- Witness for C4: empty current files and a client whose replies are
empty objects. -/
theorem refine_retry_bound_witness :
    (refine_portfolio true (fun _ => Except.ok "\x7b\x7d") [] true).2.calls = 2
    ∧ (refine_portfolio true (fun _ => Except.ok "\x7b\x7d") [] true).1.success = false
    ∧ (refine_portfolio true (fun _ => Except.ok "\x7b\x7d") [] true).1.error
        = some "validation_failed"
    ∧ (refine_portfolio true (fun _ => Except.ok "\x7b\x7d") [] true).1.validation_problems
        = some (validate_generated_files (pyUpdate [] ((fun _ => ([] : FileSet)) 1))).2
    ∧ (refine_portfolio true (fun _ => Except.ok "\x7b\x7d") [] true).1.files = [] :=
  refine_retry_bound [] (fun _ => Except.ok "\x7b\x7d") (fun _ => "\x7b\x7d")
    (fun _ => Json.obj []) (fun _ => []) rfl
    (fun _ _ => ⟨rfl, rfl, rfl, rfl⟩)

/-! ### Claim C8 (corrected): extraction failure aborts immediately -/

/-- Counterexample to C8 as stated: on an initial build with auto retry
enabled, a first-attempt extraction failure makes exactly one model call
(no retry bookkeeping) and the error code is the raised message, never
the code extraction_failed. -/
theorem refine_extraction_failure_counterexample :
    (refine_portfolio true (fun _ => Except.ok "no json here") [] true).2.calls = 1
    ∧ (refine_portfolio true (fun _ => Except.ok "no json here") [] true).1.error
        = some "No valid JSON found in LLM response"
    ∧ (refine_portfolio true (fun _ => Except.ok "no json here") [] true).1.error
        ≠ some "extraction_failed" :=
  ⟨rfl, rfl, by decide⟩

/-- C8 as amended: when extraction of the first reply fails, the run
terminates immediately through the generic exception path — with either
retry setting and regardless of attempt budget left — returning success
false, one model call, unchanged files, and the raised message as the
error code. -/
theorem refine_extraction_failure_immediate
    (current : FileSet) (respond : Nat → Except String String) (retry : Bool) (c : String)
    (hr : respond 0 = Except.ok c) (he : extract_json c = none) :
    (refine_portfolio true respond current retry).2.calls = 1
    ∧ (refine_portfolio true respond current retry).1.success = false
    ∧ (refine_portfolio true respond current retry).1.error
        = some "No valid JSON found in LLM response"
    ∧ (refine_portfolio true respond current retry).1.files = current := by
  cases retry <;>
    refine ⟨?_, ?_, ?_, ?_⟩ <;>
      simp [refine_portfolio, loopA, attemptStep, initLoopState, finishRun, traceOf, hr, he]

/-- Witness for the amended C8. -/
theorem refine_extraction_failure_immediate_witness :
    (refine_portfolio true (fun _ => Except.ok "plain prose") [("x", "y")] false).2.calls = 1
    ∧ (refine_portfolio true (fun _ => Except.ok "plain prose") [("x", "y")] false).1.success
        = false
    ∧ (refine_portfolio true (fun _ => Except.ok "plain prose") [("x", "y")] false).1.error
        = some "No valid JSON found in LLM response"
    ∧ (refine_portfolio true (fun _ => Except.ok "plain prose") [("x", "y")] false).1.files
        = [("x", "y")] :=
  refine_extraction_failure_immediate [("x", "y")] (fun _ => Except.ok "plain prose") false
    "plain prose" rfl rfl

/-! ### Claim C7: validation policy asymmetry -/

/-- On a refinement (not an initial build) one loop iteration never
touches the validation inputs. -/
theorem attemptStep_noInit_validateInputs (respond : Nat → Except String String)
    (current : FileSet) (st : LoopState) :
    (attemptStep respond current false st).validateInputs = st.validateInputs := by
  cases hr : respond st.calls with
  | error e => simp [attemptStep, hr]
  | ok content =>
    cases he : extract_json content with
    | none => simp [attemptStep, hr, he]
    | some r =>
      cases hf : filesOfReply r with
      | error e => simp [attemptStep, hr, he, hf]
      | ok fsR => simp [attemptStep, hr, he, hf]

/-- On a refinement the whole loop never touches the validation
inputs. -/
theorem loopA_noInit_validateInputs (respond : Nat → Except String String)
    (current : FileSet) : ∀ (fuel : Nat) (st : LoopState),
    (loopA respond current false fuel st).validateInputs = st.validateInputs := by
  intro fuel
  induction fuel with
  | zero => intro st; rfl
  | succ f ih =>
    intro st
    rw [loopA]
    by_cases hvp : st.validation_passed = true
    · rw [if_pos hvp]
    · rw [if_neg hvp]
      cases hexc : (attemptStep respond current false st).exc with
      | some e =>
        simp only [hexc]
        exact attemptStep_noInit_validateInputs respond current st
      | none =>
        simp only [hexc]
        rw [ih]
        exact attemptStep_noInit_validateInputs respond current st

/-- On an initial build one loop iteration preserves the fact that the
validation inputs are exactly the per-attempt extracted files merged
with the current files. -/
theorem attemptStep_init_invariant (respond : Nat → Except String String)
    (current : FileSet) (st : LoopState)
    (h : st.validateInputs = st.attemptFiles.map (pyUpdate current)) :
    (attemptStep respond current true st).validateInputs
      = ((attemptStep respond current true st).attemptFiles).map (pyUpdate current) := by
  cases hr : respond st.calls with
  | error e => simpa [attemptStep, hr] using h
  | ok content =>
    cases he : extract_json content with
    | none => simpa [attemptStep, hr, he] using h
    | some r =>
      cases hf : filesOfReply r with
      | error e => simpa [attemptStep, hr, he, hf] using h
      | ok fsR => simp [attemptStep, hr, he, hf, List.map_append, h]

/-- On an initial build the whole loop keeps every validation input of
the form current merged with the files of one attempt. -/
theorem loopA_init_invariant (respond : Nat → Except String String)
    (current : FileSet) : ∀ (fuel : Nat) (st : LoopState),
    st.validateInputs = st.attemptFiles.map (pyUpdate current) →
    (loopA respond current true fuel st).validateInputs
      = ((loopA respond current true fuel st).attemptFiles).map (pyUpdate current) := by
  intro fuel
  induction fuel with
  | zero => intro st h; exact h
  | succ f ih =>
    intro st h
    rw [loopA]
    by_cases hvp : st.validation_passed = true
    · rw [if_pos hvp]; exact h
    · rw [if_neg hvp]
      cases hexc : (attemptStep respond current true st).exc with
      | some e =>
        simp only [hexc]
        exact attemptStep_init_invariant respond current st h
      | none =>
        simp only [hexc]
        exact ih _ (attemptStep_init_invariant respond current st h)

/-- C7: validation runs only on initial builds, and then always against
the current files merged with the extracted files of the attempt, never
against the extracted files alone; when the current files already hold
every required core file the validator is never invoked and the run
succeeds even when the reply omits required files. -/
theorem refine_validation_asymmetry
    (current : FileSet) (respond : Nat → Except String String) (retry : Bool) :
    ((∀ f ∈ REQUIRED_CORE_FILES, fsContains current f = true) →
      ((refine_portfolio true respond current retry).2.validateInputs = []
        ∧ ∀ c r F, respond 0 = Except.ok c → extract_json c = some r →
            filesOfReply r = Except.ok F →
            (refine_portfolio true respond current retry).1.success = true
            ∧ (refine_portfolio true respond current retry).1.files = pyUpdate current F))
    ∧ ((detect_initial_generation current).1 = true →
      (refine_portfolio true respond current retry).2.validateInputs
        = ((refine_portfolio true respond current retry).2.attemptFiles).map
            (pyUpdate current)) := by
  constructor
  · intro hreq
    have hne : current ≠ [] := by
      intro hnil
      have := hreq "package.json" (by decide)
      rw [hnil] at this
      cases this
    have hmiss : REQUIRED_CORE_FILES.filter (fun f => !fsContains current f) = [] := by
      rw [List.filter_eq_nil_iff]
      intro f hf
      simp [hreq f hf]
    have hini : (detect_initial_generation current).1 = false := by
      simp [detect_initial_generation, hmiss, hne]
    constructor
    · simp only [refine_portfolio, Bool.true_eq_false, if_neg (by simp : ¬(True = False)),
        hini, traceOf]
      exact loopA_noInit_validateInputs respond current _ initLoopState
    · intro c r F hr he hf
      cases retry <;>
        refine ⟨?_, ?_⟩ <;>
          simp [refine_portfolio, hini, loopA, attemptStep, initLoopState, finishRun,
            traceOf, hr, he, hf]
  · intro hini
    simp only [refine_portfolio, Bool.true_eq_false, if_neg (by simp : ¬(True = False)),
      hini, traceOf]
    exact loopA_init_invariant respond current _ initLoopState rfl

/-- Witness for C7: the refinement half at a complete project with a
reply omitting every required file, and the initial half at empty
current files. -/
theorem refine_validation_asymmetry_witness :
    ((refine_portfolio true (fun _ => Except.ok "\x7b\x7d") completeProject false).2.validateInputs
        = [])
    ∧ ((refine_portfolio true (fun _ => Except.ok "\x7b\x7d") completeProject false).1.success
        = true)
    ∧ ((refine_portfolio true (fun _ => Except.ok "\x7b\x7d") [] false).2.validateInputs
        = ((refine_portfolio true (fun _ => Except.ok "\x7b\x7d") [] false).2.attemptFiles).map
            (pyUpdate [])) :=
  ⟨((refine_validation_asymmetry completeProject (fun _ => Except.ok "\x7b\x7d") false).1
      (by decide)).1,
   (((refine_validation_asymmetry completeProject (fun _ => Except.ok "\x7b\x7d") false).1
      (by decide)).2 "\x7b\x7d" (Json.obj []) [] rfl rfl rfl).1,
   (refine_validation_asymmetry [] (fun _ => Except.ok "\x7b\x7d") false).2 rfl⟩

/-! ### Claim C9: streaming error containment -/

/-- C9: whenever the streaming path hits an internal error (unconfigured
client, model-call exception, extraction failure, or unreadable reply
files), the emitted event sequence ends with exactly one result event
whose data carries success false, the unchanged input files, and an
error description, and no event follows it. -/
theorem stream_error_containment
    (cc : Bool) (respond : Except String String) (current : FileSet)
    (h : streamInternalError cc respond = true) :
    ∃ pre d, stream_refine_portfolio cc respond current = pre ++ [Event.result d]
      ∧ (∀ e ∈ pre, isResultEvent e = false)
      ∧ d.success = false ∧ d.files = current ∧ d.error.isSome = true := by
  cases cc with
  | false =>
    refine ⟨[Event.tool "analyze_request" "running", Event.tool "analyze_request" "success"],
      _, rfl, ?_, rfl, rfl, rfl⟩
    intro e he
    rcases he with _ | ⟨_, h2⟩
    · rfl
    · rcases h2 with _ | ⟨_, h3⟩
      · rfl
      · cases h3
  | true =>
    cases hr : respond with
    | error e =>
      refine ⟨[Event.tool "analyze_request" "running", Event.tool "analyze_request" "success",
        Event.tool "generate_code" "running"], streamFailData current e, ?_, ?_, rfl, rfl, rfl⟩
      · simp [stream_refine_portfolio, hr]
      · intro ev hev
        rcases hev with _ | ⟨_, h2⟩
        · rfl
        · rcases h2 with _ | ⟨_, h3⟩
          · rfl
          · rcases h3 with _ | ⟨_, h4⟩
            · rfl
            · cases h4
    | ok content =>
      cases he : extract_json content with
      | none =>
        refine ⟨[Event.tool "analyze_request" "running", Event.tool "analyze_request" "success",
          Event.tool "generate_code" "running", Event.tool "generate_code" "success"],
          streamFailData current "No valid JSON found in LLM response", ?_, ?_, rfl, rfl, rfl⟩
        · simp [stream_refine_portfolio, hr, he]
        · intro ev hev
          rcases hev with _ | ⟨_, h2⟩
          · rfl
          · rcases h2 with _ | ⟨_, h3⟩
            · rfl
            · rcases h3 with _ | ⟨_, h4⟩
              · rfl
              · rcases h4 with _ | ⟨_, h5⟩
                · rfl
                · cases h5
      | some r =>
        cases hf : filesOfReply r with
        | error e =>
          refine ⟨[Event.tool "analyze_request" "running", Event.tool "analyze_request" "success",
            Event.tool "generate_code" "running", Event.tool "generate_code" "success"],
            streamFailData current e, ?_, ?_, rfl, rfl, rfl⟩
          · simp [stream_refine_portfolio, hr, he, hf]
          · intro ev hev
            rcases hev with _ | ⟨_, h2⟩
            · rfl
            · rcases h2 with _ | ⟨_, h3⟩
              · rfl
              · rcases h3 with _ | ⟨_, h4⟩
                · rfl
                · rcases h4 with _ | ⟨_, h5⟩
                  · rfl
                  · cases h5
        | ok fsR =>
          exfalso
          simp [streamInternalError, hr, he, hf] at h

/-- Witness for C9 with an unconfigured client. -/
theorem stream_error_containment_witness :
    ∃ pre d, stream_refine_portfolio false (Except.ok "x") [("a", "b")]
        = pre ++ [Event.result d]
      ∧ (∀ e ∈ pre, isResultEvent e = false)
      ∧ d.success = false ∧ d.files = [("a", "b")] ∧ d.error.isSome = true :=
  stream_error_containment false (Except.ok "x") [("a", "b")] rfl

/-! ### Claim C10: diff computation on successful runs -/

theorem max_zero_sub_antisym (x y : Int) :
    ¬(0 < max 0 (x - y) ∧ 0 < max 0 (y - x)) := by
  intro hc
  rcases le_total x y with hle | hle
  · rw [show (max 0 (x - y) : Int) = 0 from max_eq_left (by omega)] at hc
    exact lt_irrefl 0 hc.1
  · rw [show (max 0 (y - x) : Int) = 0 from max_eq_left (by omega)] at hc
    exact lt_irrefl 0 hc.2

/-- C10: on every successful run the edit records are exactly those
computed from the extracted files against the current files; each record
takes its old content from the current files (empty for an absent path),
its added and removed line counts are the clamped differences of the
line counts of the new and old contents, both are nonnegative, and at
most one of them is positive. -/
theorem edits_diff_correct
    (cc : Bool) (respond : Nat → Except String String) (current : FileSet) (retry : Bool)
    (hs : (refine_portfolio cc respond current retry).1.success = true) :
    (refine_portfolio cc respond current retry).1.edits_made
      = computeEdits current ((refine_portfolio cc respond current retry).1.refined_files)
    ∧ ∀ e ∈ (refine_portfolio cc respond current retry).1.edits_made,
        e.old_content = fsGetD current e.file ""
        ∧ e.lines_added
            = max 0 ((newLineCount e.new_content : Int) - (oldLineCount e.old_content : Int))
        ∧ e.lines_removed
            = max 0 ((oldLineCount e.old_content : Int) - (newLineCount e.new_content : Int))
        ∧ 0 ≤ e.lines_added ∧ 0 ≤ e.lines_removed
        ∧ ¬(0 < e.lines_added ∧ 0 < e.lines_removed) := by
  cases cc with
  | false => cases hs
  | true =>
    simp only [refine_portfolio, Bool.true_eq_false, if_neg (by simp : ¬(True = False))] at hs ⊢
    rw [finishRun_success_eq current _ _ hs]
    refine ⟨rfl, ?_⟩
    intro e he
    rcases List.mem_map.mp he with ⟨kv, _, rfl⟩
    refine ⟨rfl, rfl, rfl, le_max_left 0 _, le_max_left 0 _, ?_⟩
    exact max_zero_sub_antisym _ _

/-- Witness for C10 at a successful refinement run that rewrites one
file. -/
theorem edits_diff_correct_witness :
    (refine_portfolio true
        (fun _ => Except.ok "\x7b\"files\": \x7b\"app/page.tsx\": \"new\"\x7d\x7d")
        completeProject true).1.edits_made
      = computeEdits completeProject
          ((refine_portfolio true
              (fun _ => Except.ok "\x7b\"files\": \x7b\"app/page.tsx\": \"new\"\x7d\x7d")
              completeProject true).1.refined_files) :=
  (edits_diff_correct true
    (fun _ => Except.ok "\x7b\"files\": \x7b\"app/page.tsx\": \"new\"\x7d\x7d")
    completeProject true rfl).1

end PortGen
